import Mathlib

/-
Verification development for the sqlite-helper repository.

The embedding follows the latest revision of the class, the TypeScript
source `SQLiteHelper` (src/unnamed/part_003); divergences of the earlier
JavaScript revisions (src/unnamed/part_002) are noted where a claim
depends on them.  JavaScript objects are modelled as ordered association
lists, JavaScript numbers as integers (fractional and exponent forms are
outside the model), and the external collaborators (the better-sqlite3
engine) as function parameters.
-/

namespace SqliteHelper

/-- A JavaScript/JSON value.  Numbers are modelled as integers; `undefined`
is modelled as `Option.none` at use sites (a missing object field). -/
inductive JValue where
  | null : JValue
  | bool : Bool → JValue
  | num : Int → JValue
  | str : String → JValue
  | arr : List JValue → JValue
  | obj : List (String × JValue) → JValue

/-- A row / plain JavaScript object: an ordered list of fields. -/
abbrev Row := List (String × JValue)

/-- Property read on a plain object: first field with the given name
(JavaScript objects have unique keys; first occurrence wins). -/
def getField : Row → String → Option JValue
  | [], _ => none
  | (k, v) :: rest, key => if k = key then some v else getField rest key

/-- JavaScript truthiness of a value. -/
def truthy : JValue → Bool
  | .null => false
  | .bool b => b
  | .num n => n != 0
  | .str s => s != ""
  | .arr _ => true
  | .obj _ => true

/-- Escape one character for a JSON string literal, as JSON.stringify does
(control characters other than the common escapes are kept as-is in this
model). -/
def escChar (c : Char) : String :=
  if c = '"' then "\\\""
  else if c = '\\' then "\\\\"
  else if c = '\n' then "\\n"
  else if c = '\t' then "\\t"
  else if c = '\r' then "\\r"
  else String.singleton c

/-- Quote a string as a JSON string literal. -/
def quoteStr (s : String) : String :=
  "\"" ++ String.join (s.toList.map escChar) ++ "\""

mutual

/-- JSON.stringify on a value (the source destructures it as `stringify`). -/
def stringify : JValue → String
  | .null => "null"
  | .bool true => "true"
  | .bool false => "false"
  | .num n => toString n
  | .str s => quoteStr s
  | .arr xs => "[" ++ stringifyElems xs ++ "]"
  | .obj fs => "\x7b" ++ stringifyFields fs ++ "\x7d"

/-- JSON.stringify of the comma-separated elements of an array. -/
def stringifyElems : List JValue → String
  | [] => ""
  | [x] => stringify x
  | x :: y :: xs => stringify x ++ "," ++ stringifyElems (y :: xs)

/-- JSON.stringify of the comma-separated fields of an object. -/
def stringifyFields : List (String × JValue) → String
  | [] => ""
  | [(k, v)] => quoteStr k ++ ":" ++ stringify v
  | (k, v) :: f :: fs => quoteStr k ++ ":" ++ stringify v ++ "," ++ stringifyFields (f :: fs)

end

mutual

/-- The JavaScript String() coercion, applied by JSON.parse to a
non-string argument before parsing it. -/
def jsToString : JValue → String
  | .null => "null"
  | .bool true => "true"
  | .bool false => "false"
  | .num n => toString n
  | .str s => s
  | .arr xs => arrayJoin xs
  | .obj _ => "[object Object]"

/-- Array.prototype.toString: elements joined with commas; a null element
renders as the empty string. -/
def arrayJoin : List JValue → String
  | [] => ""
  | [JValue.null] => ""
  | [x] => jsToString x
  | JValue.null :: y :: xs => "," ++ arrayJoin (y :: xs)
  | x :: y :: xs => jsToString x ++ "," ++ arrayJoin (y :: xs)

end

/-- Skip JSON whitespace. -/
def skipWs : List Char → List Char
  | c :: rest =>
    if c = ' ' ∨ c = '\t' ∨ c = '\n' ∨ c = '\r' then skipWs rest else c :: rest
  | [] => []

/-- Decode one JSON escape character. -/
def escDecode (c : Char) : Option Char :=
  if c = '"' then some '"'
  else if c = '\\' then some '\\'
  else if c = '/' then some '/'
  else if c = 'n' then some '\n'
  else if c = 't' then some '\t'
  else if c = 'r' then some '\r'
  else if c = 'b' then some (Char.ofNat 8)
  else if c = 'f' then some (Char.ofNat 12)
  else none

/-- Parse the body of a JSON string literal after its opening quote.
Unicode escapes are outside the model. -/
def parseStrChars : List Char → Option (String × List Char)
  | [] => none
  | c :: rest =>
    if c = '"' then some ("", rest)
    else if c = '\\' then
      match rest with
      | [] => none
      | e :: rest2 =>
        match escDecode e with
        | some ec => (parseStrChars rest2).map (fun p => (String.singleton ec ++ p.1, p.2))
        | none => none
    else if c.val < 32 then none
    else (parseStrChars rest).map (fun p => (String.singleton c ++ p.1, p.2))

/-- Accumulate decimal digits into a natural number. -/
def digitsToNat (ds : List Char) : Nat :=
  ds.foldl (fun acc c => acc * 10 + (c.toNat - 48)) 0

/-- The opening brace character. -/
def braceOpen : Char := Char.ofNat 123

/-- The closing brace character. -/
def braceClose : Char := Char.ofNat 125

/-- Parse a JSON number.  Only integer literals are representable in the
model; fractional and exponent forms fail to parse here. -/
def parseNumber (cs : List Char) : Option (JValue × List Char) :=
  let p := match cs with
    | '-' :: r => (true, r)
    | _ => (false, cs)
  match List.span Char.isDigit p.2 with
  | ([], _) => none
  | (ds, rest) =>
    if ds.length > 1 ∧ ds.head? = some '0' then none
    else
      match rest with
      | '.' :: _ => none
      | 'e' :: _ => none
      | 'E' :: _ => none
      | _ =>
        let n : Int := (digitsToNat ds : Nat)
        some (.num (if p.1 then -n else n), rest)

mutual

/-- Fuel-indexed recursive-descent JSON value parser. -/
def parseVal : Nat → List Char → Option (JValue × List Char)
  | 0, _ => none
  | n + 1, cs =>
    match skipWs cs with
    | [] => none
    | c :: rest =>
      if c = 'n' then
        match rest with
        | 'u' :: 'l' :: 'l' :: r => some (.null, r)
        | _ => none
      else if c = 't' then
        match rest with
        | 'r' :: 'u' :: 'e' :: r => some (.bool true, r)
        | _ => none
      else if c = 'f' then
        match rest with
        | 'a' :: 'l' :: 's' :: 'e' :: r => some (.bool false, r)
        | _ => none
      else if c = '"' then
        (parseStrChars rest).map (fun p => (JValue.str p.1, p.2))
      else if c = '[' then
        match skipWs rest with
        | ']' :: r => some (.arr [], r)
        | r => (parseArrItems n r).map (fun p => (JValue.arr p.1, p.2))
      else if c = braceOpen then
        match skipWs rest with
        | d :: r =>
          if d = braceClose then some (.obj [], r)
          else (parseObjItems n (d :: r)).map (fun p => (JValue.obj p.1, p.2))
        | [] => none
      else
        parseNumber (c :: rest)

/-- Parse the comma-separated items of a non-empty JSON array. -/
def parseArrItems : Nat → List Char → Option (List JValue × List Char)
  | 0, _ => none
  | n + 1, cs =>
    match parseVal n cs with
    | none => none
    | some (v, rest) =>
      match skipWs rest with
      | ',' :: r =>
        match parseArrItems n r with
        | none => none
        | some (vs, r2) => some (v :: vs, r2)
      | ']' :: r => some ([v], r)
      | _ => none

/-- Parse the comma-separated fields of a non-empty JSON object. -/
def parseObjItems : Nat → List Char → Option (List (String × JValue) × List Char)
  | 0, _ => none
  | n + 1, cs =>
    match skipWs cs with
    | '"' :: r =>
      match parseStrChars r with
      | none => none
      | some (key, rest) =>
        match skipWs rest with
        | ':' :: r2 =>
          match parseVal n r2 with
          | none => none
          | some (v, rest2) =>
            match skipWs rest2 with
            | ',' :: r3 =>
              match parseObjItems n r3 with
              | none => none
              | some (fs, r4) => some ((key, v) :: fs, r4)
            | d :: r3 =>
              if d = braceClose then some ([(key, v)], r3) else none
            | [] => none
        | _ => none
    | _ => none

end

/-- JSON.parse on a string: a single value with only whitespace around it,
or failure (modelling the thrown SyntaxError). -/
def jsonParse (s : String) : Option JValue :=
  match parseVal (2 * s.length + 4) s.toList with
  | some (v, rest) => if skipWs rest = [] then some v else none
  | none => none

/-- JSON.parse applied to an arbitrary value: JavaScript first coerces the
argument to a string. -/
def jsonParseJS (v : JValue) : Option JValue :=
  jsonParse (jsToString v)

/-- One field of the decode step: `object[key] = parse(object[key])` inside
try/catch — a parse failure keeps the original value. -/
def parseField (v : JValue) : JValue :=
  (jsonParseJS v).getD v

/-- Model of `SQLiteHelper._parseKeys` (part_003 lines 397-404): decode every field
of a row, keeping fields whose parse fails. -/
def parseKeys (r : Row) : Row :=
  r.map (fun p => (p.1, parseField p.2))

/-- JavaScript Object.keys: field names of an object, index strings of an
array or a string, empty for other primitives. -/
def objectKeys : JValue → List String
  | .obj fs => fs.map Prod.fst
  | .arr xs => (List.range xs.length).map toString
  | .str s => (List.range s.length).map toString
  | _ => []

/-- JavaScript property read `v[key]` on an arbitrary value (boxing:
reading a property of a primitive does not throw). -/
def getProp (v : JValue) (key : String) : Option JValue :=
  match v with
  | .obj fs => getField fs key
  | .arr xs =>
    match key.toNat? with
    | some i => xs.get? i
    | none => none
  | .str s =>
    match key.toNat? with
    | some i => (s.toList.get? i).map (fun c => JValue.str (String.singleton c))
    | none => none
  | _ => none

/-- JavaScript property read that throws a TypeError when the receiver is
null (`null.key`); modelled as an Except. -/
def getPropE (v : JValue) (key : String) : Except String (Option JValue) :=
  match v with
  | .null => .error "TypeError: Cannot read properties of null"
  | v => .ok (getProp v key)

/-- The key/value pairs enumerated by a JavaScript for-in loop over a
value: object fields, array/string indices, nothing for other
primitives. -/
def forInPairs : JValue → List (String × JValue)
  | .obj fs => fs
  | .arr xs => (List.range xs.length).map (fun i => (toString i, xs.getD i JValue.null))
  | .str s => (List.range s.length).map
      (fun i => (toString i, JValue.str (String.singleton ((s.toList.getD i ' ')))))
  | _ => []

/-- JavaScript property assignment `r[k] = v` on a plain object: replaces
the value of an existing key in place, otherwise appends the field. -/
def setField : Row → String → JValue → Row
  | [], k, v => [(k, v)]
  | (k2, v2) :: rest, k, v =>
    if k2 = k then (k, v) :: rest else (k2, v2) :: setField rest k v

/-- One bound value in `_createQuery` (part_003 lines 349-353 / 364-368):
`if (value.constructor === Object || value.constructor === Array) value =
stringify(value)`.  Reading `.constructor` of null throws a TypeError. -/
def bindEncode : JValue → Except String JValue
  | .null => .error "TypeError: Cannot read properties of null"
  | .obj fs => .ok (.str (stringify (.obj fs)))
  | .arr xs => .ok (.str (stringify (.arr xs)))
  | v => .ok v

/-- The Query Descriptor built by `_createQuery`: statement text, SET /
INSERT bound values, WHERE bound values. -/
structure QueryDescriptor where
  query : String
  values : List JValue
  whereValues : List JValue

/-- The values-push of `_createQuery`: encode the column values in key
order, stopping with the first thrown TypeError.  (The source builds the
bound values and the `col = ?` strings in one map; the model computes the
values first and the pure statement text separately — same output, same
first error.) -/
def bindValues (columns : JValue) : List String → Except String (List JValue)
  | [] => .ok []
  | cn :: rest =>
    match bindEncode ((getProp columns cn).getD JValue.null) with
    | .error msg => .error msg
    | .ok v =>
      match bindValues columns rest with
      | .error msg => .error msg
      | .ok vs => .ok (v :: vs)

/-- The INSERT branch of `_createQuery` (part_003 lines 362-371). -/
def insertQuery (name : String) (columns : JValue) (columnNames : List String) :
    Except String QueryDescriptor :=
  match bindValues columns columnNames with
  | .error msg => .error msg
  | .ok values =>
    let columnNamesString := String.intercalate ", " columnNames
    let questionMarks := String.intercalate ", " (columnNames.map (fun _ => "?"))
    .ok ⟨s!"INSERT INTO {name} ({columnNamesString}) VALUES ({questionMarks})", values, []⟩

/-- Model of `SQLiteHelper._createQuery` (part_003 lines 341-379): turn one
row-intent object into a Query Descriptor.  Note the WHERE clause joins
its `col = ?` parts with the separator " AND" — no trailing space — as in
the source (the source has .join(" AND") on line 359). -/
def createQuery (name : String) (row : Row) : Except String QueryDescriptor :=
  let columns := (getField row "columns").getD JValue.null
  let columnNames := objectKeys columns
  match getField row "where" with
  | some w =>
    if truthy w then
      match bindValues columns columnNames with
      | .error msg => .error msg
      | .ok values =>
        let columnsStatement := String.intercalate ", " (columnNames.map (fun cn => cn ++ " = ?"))
        let whereKeys := (forInPairs w).map Prod.fst
        let whereValues := (forInPairs w).map Prod.snd
        let whereStatement := "WHERE " ++ String.intercalate " AND" (whereKeys.map (fun k => k ++ " = ?"))
        .ok ⟨s!"UPDATE {name} SET {columnsStatement} {whereStatement}", values, whereValues⟩
    else
      insertQuery name columns columnNames
  | none => insertQuery name columns columnNames

/-- The message of the InvalidInput error thrown at the top of `set`. -/
def invalidRowsMessage : String :=
  "No rows were provided or their type was invalid. To set a single row, an object should be given, or an array if multiple rows should be set."

/-- The argument validation and array coercion at the top of
`SQLiteHelper.set` (part_003 lines 179-187): reject anything that is not a
plain object or an array, wrap a single object into an array. -/
def setInputRows : JValue → Except String (List JValue)
  | .obj fs => .ok [.obj fs]
  | .arr xs => .ok xs
  | _ => .error invalidRowsMessage

/-- The per-element normalization in the first loop of `set` (part_003
lines 192-199): a falsy element becomes an empty object, and an element
without a truthy `columns` field is wrapped as the `columns` of a fresh
row-intent. -/
def normalizeRow (v : JValue) : Row :=
  let w := if truthy v then v else JValue.obj []
  match w with
  | .obj fs =>
    match getField fs "columns" with
    | some c => if truthy c then fs else [("columns", JValue.obj fs)]
    | none => [("columns", JValue.obj fs)]
  | x => [("columns", x)]

/-- The stored table contents, as the backing engine holds them. -/
abbrev Store := List Row

/-- The table-handle state the claims are about: table name, caching flag,
backing store, and the in-process cache array. -/
structure HandleState where
  name : String
  caching : Bool
  store : Store
  cache : List Row

/-- The backing engine executing one prepared statement inside a
transaction: new store contents plus the info.changes count of the statement
count, or a thrown engine error. -/
abbrev Exec := QueryDescriptor → Store → Except String (Store × Nat)

/-- Model of `SQLiteHelper._set` (part_003 lines 381-395): run every query of the
batch through `db.transaction(...)`.  The transaction guarantee of the engine
(better-sqlite3): if any statement throws, the whole transaction rolls
back, so the error case surfaces with the store unchanged. -/
def runTransaction (exec : Exec) : Store → List QueryDescriptor → Except String (Store × List Nat)
  | s, [] => .ok (s, [])
  | s, q :: qs =>
    match exec q s with
    | .error e => .error e
    | .ok (s2, n) =>
      match runTransaction exec s2 qs with
      | .error e => .error e
      | .ok (s3, ns) => .ok (s3, n :: ns)

/-- Strict equality `===` restricted to the modelled values: same-type
primitive equality; comparisons between an object/array and anything are
reference comparisons and are modelled as false (fresh references). -/
def jsStrictEq (a : Option JValue) (b : JValue) : Bool :=
  match a, b with
  | none, _ => false
  | some .null, .null => true
  | some (.bool x), .bool y => x == y
  | some (.num x), .num y => x == y
  | some (.str x), .str y => x == y
  | some _, _ => false

/-- The inner for-in of the cache-eviction loop in `set` (part_003 lines
218-224): does a cache entry strictly match any where-key/value pair? -/
def rowMatchesWhere (v : Row) (w : JValue) : Bool :=
  (forInPairs w).any (fun kv => jsStrictEq (getField v kv.1) kv.2)

/-- The cache-eviction scan of `set` (part_003 lines 215-225): a single
forward pass over the cache; every entry matching any where-key is
spliced out, the loop index increment after a splice skips the entry that
slid into the removed slot, and `oldCacheValue` ends up holding the last
removed entry. -/
def evictScan (w : JValue) : List Row → List Row × Option Row
  | [] => ([], none)
  | v :: rest =>
    if rowMatchesWhere v w then
      match rest with
      | [] => ([], some v)
      | r1 :: rest2 =>
        let p := evictScan w rest2
        (r1 :: p.1, p.2.orElse (fun _ => some v))
    else
      let p := evictScan w rest
      (v :: p.1, p.2)

/-- One iteration of the second (merge) loop of `set` (part_003 lines
208-241) over the original, un-normalized element: evict via the where
keys when caching is on, merge `columns` onto the surviving old cache
value, push the merged row.  Reading `.where`/`.columns` of a null
element throws.  The change callback (a no-op by default in part_003) is
not modelled. -/
def mergeStep (caching : Bool) (cache : List Row) (elem : JValue) :
    Except String (List Row × Row) :=
  let evRes : Except String (List Row × Option Row) :=
    if caching then
      match getPropE elem "where" with
      | .error msg => .error msg
      | .ok (some w) => .ok (if truthy w then evictScan w cache else (cache, none))
      | .ok none => .ok (cache, none)
    else .ok (cache, none)
  match evRes with
  | .error msg => .error msg
  | .ok ev =>
    match getPropE elem "columns" with
    | .error msg => .error msg
    | .ok cOpt =>
      let merged :=
        match cOpt with
        | some c => (forInPairs c).foldl (fun acc kv => setField acc kv.1 kv.2) (ev.2.getD [])
        | none => ev.2.getD []
      .ok ((if caching then ev.1 ++ [merged] else ev.1), merged)

/-- The second loop of `set` over all elements, threading the cache and
collecting the merged rows; an exception mid-loop leaves the cache as
mutated by the earlier iterations. -/
def mergeLoop (caching : Bool) : List JValue → List Row → List Row →
    List Row × List Row × Option String
  | [], cache, vals => (cache, vals, none)
  | e :: rest, cache, vals =>
    match mergeStep caching cache e with
    | .error msg => (cache, vals, some msg)
    | .ok (cache2, merged) => mergeLoop caching rest cache2 (vals ++ [merged])

/-- The return value of `set` (part_003 lines 243-248): the single merged
row, or the array of merged rows. -/
def setReturn (vals : List Row) : JValue :=
  match vals with
  | [v] => .obj v
  | vs => .arr (vs.map JValue.obj)

/-- The first loop of `set` (part_003 lines 192-203): normalize each
element and push its Query Descriptor; the first thrown error
propagates. -/
def buildQueries (name : String) : List JValue → Except String (List QueryDescriptor)
  | [] => .ok []
  | e :: rest =>
    match createQuery name (normalizeRow e) with
    | .error msg => .error msg
    | .ok q =>
      match buildQueries name rest with
      | .error msg => .error msg
      | .ok qs => .ok (q :: qs)

/-- Model of `SQLiteHelper.set` (part_003 lines 178-250): validate the argument,
build a Query Descriptor per row-intent, execute them all in one
transaction, then run the cache-eviction/merge loop and produce the
return value. -/
def jsSet (exec : Exec) (st : HandleState) (input : JValue) :
    HandleState × Except String JValue :=
  match setInputRows input with
  | .error e => (st, .error e)
  | .ok elems =>
    match buildQueries st.name elems with
    | .error e => (st, .error e)
    | .ok queries =>
      match runTransaction exec st.store queries with
      | .error e => (st, .error e)
      | .ok (store2, _infos) =>
        match mergeLoop st.caching elems st.cache [] with
        | (cacheP, _, some msg) => (⟨st.name, st.caching, store2, cacheP⟩, .error msg)
        | (cache2, vals, none) => (⟨st.name, st.caching, store2, cache2⟩, .ok (setReturn vals))

/-- JavaScript ToNumber on a string, for loose equality: trimmed empty
string is 0, otherwise an integer literal (fractional forms are outside
the model). -/
def strToNumber (s : String) : Option Int :=
  let t := s.trim
  if t = "" then some 0 else t.toInt?

/-- Loose equality `==` as `get` uses it (part_003 line 122), restricted
to the modelled values: undefined == null, same-type primitive equality,
number/string/boolean coercions; object operands are not coerced in this
model. -/
def jsLooseEq (a : Option JValue) (b : JValue) : Bool :=
  match a, b with
  | none, .null => true
  | none, _ => false
  | some .null, .null => true
  | some .null, _ => false
  | some (.num x), .num y => x == y
  | some (.str x), .str y => x == y
  | some (.bool x), .bool y => x == y
  | some (.num x), .str s => strToNumber s == some x
  | some (.str s), .num y => strToNumber s == some y
  | some (.bool x), .num y => (if x then (1 : Int) else 0) == y
  | some (.num x), .bool y => x == (if y then (1 : Int) else 0)
  | some (.bool x), .str s => strToNumber s == some (if x then (1 : Int) else 0)
  | some (.str s), .bool y => strToNumber s == some (if y then (1 : Int) else 0)
  | some _, _ => false

/-- The cache scan of `get` (part_003 lines 119-127): index of the first
entry whose probed field is loosely equal to the probe value. -/
def cacheFindAux (i : Nat) (cache : List Row) (k : String) (v : JValue) : Option (Nat × Row) :=
  match cache with
  | [] => none
  | r :: rest =>
    if jsLooseEq (getField r k) v then some (i, r) else cacheFindAux (i + 1) rest k v

/-- First cache hit for a column/value probe, with its position. -/
def cacheFind (cache : List Row) (k : String) (v : JValue) : Option (Nat × Row) :=
  cacheFindAux 0 cache k v

/-- The backing engine running the equality SELECT of `get`. -/
abbrev Select := String → JValue → Store → Option Row

/-- Model of `SQLiteHelper.get` (part_003 lines 115-147): cache scan first when
caching is on; on a hit the entry is decoded and the decoded row replaces
it in place; on a miss the SELECT result is decoded and appended to the
cache.  Never raises for a missing row. -/
def jsGet (select : Select) (st : HandleState) (columnName : String) (columnValue : JValue) :
    HandleState × Option Row :=
  if st.caching then
    match cacheFind st.cache columnName columnValue with
    | some (i, r) =>
      let d := parseKeys r
      (⟨st.name, st.caching, st.store, st.cache.set i d⟩, some d)
    | none =>
      match select columnName columnValue st.store with
      | some r =>
        let d := parseKeys r
        (⟨st.name, st.caching, st.store, st.cache ++ [d]⟩, some d)
      | none => (st, none)
  else
    match select columnName columnValue st.store with
    | some r => (st, some (parseKeys r))
    | none => (st, none)

/-- The backing engine running the equality DELETE of `delete`: new store
contents and the affected-row count `info.changes`. -/
abbrev ExecDelete := String → JValue → Store → Store × Nat

/-- The cache-eviction scan of `delete` (part_003 lines 290-296): a single
forward pass removing every entry whose full JSON serialization equals
the probe; the index increment after a splice skips the entry that slid
into the removed slot. -/
def deleteScan (probe : String) : List Row → List Row
  | [] => []
  | v :: rest =>
    if stringify (.obj v) = probe then
      match rest with
      | [] => []
      | r1 :: rest2 => r1 :: deleteScan probe rest2
    else
      v :: deleteScan probe rest

/-- Model of `SQLiteHelper.delete` (part_003 lines 285-299): run the DELETE, evict
whole-row-serialization matches of the one-field probe object from the
cache when caching is on, return the affected-row count. -/
def jsDelete (execDelete : ExecDelete) (st : HandleState) (columnName : String)
    (columnValue : JValue) : HandleState × Nat :=
  let p := execDelete columnName columnValue st.store
  let cache2 :=
    if st.caching then deleteScan (stringify (.obj [(columnName, columnValue)])) st.cache
    else st.cache
  (⟨st.name, st.caching, p.1, cache2⟩, p.2)

/-- The cache scan of `uncache` with both arguments (part_003 lines
312-320): remove the first whole-row-serialization match and stop, or
report no removal. -/
def uncacheScan (probe : String) : List Row → Option (List Row)
  | [] => none
  | v :: rest =>
    if stringify (.obj v) = probe then some rest
    else (uncacheScan probe rest).map (fun c => v :: c)

/-- Model of `SQLiteHelper.uncache` (part_003 lines 307-329): false immediately
when caching is off; with both arguments remove the first
whole-row-serialization match and report whether one was removed; with no
arguments clear the cache (`this.cache.length = 0`) and return
`!this.cache.length`.  (Passing only one argument behaves like passing
none in the source; the model carries both arguments or neither.) -/
def jsUncache (st : HandleState) (args : Option (String × JValue)) : HandleState × Bool :=
  if !st.caching then (st, false)
  else
    match args with
    | some (cn, cv) =>
      match uncacheScan (stringify (.obj [(cn, cv)])) st.cache with
      | some cache2 => (⟨st.name, st.caching, st.store, cache2⟩, true)
      | none => (st, false)
    | none =>
      let cleared : List Row := []
      (⟨st.name, st.caching, st.store, cleared⟩, cleared.isEmpty)

/-- The construction-time option fields the claims are about; `none`
models an absent (undefined) option. -/
structure CtorOptions where
  caching : Option Bool
  fetchAll : Option Bool
  wal : Option Bool

/-- JavaScript `x || d` on a possibly-undefined boolean. -/
def jsOr (x : Option Bool) (d : Bool) : Bool :=
  match x with
  | some b => if b then b else d
  | none => d

/-- The option values a constructor run settles on. -/
structure ResolvedOptions where
  caching : Bool
  fetchAll : Bool
  wal : Bool

/-- The option resolution of the part_003 constructor (lines 61-69):
`caching = options.caching || true`, `fetchAll = options.fetchAll ||
false`, `wal = options.wal || false`. -/
def resolveOptionsTS (o : CtorOptions) : ResolvedOptions :=
  ⟨jsOr o.caching true, jsOr o.fetchAll false, jsOr o.wal false⟩

/-- JavaScript `x === undefined ? d : !!x` on a possibly-undefined
boolean. -/
def undefDefault (x : Option Bool) (d : Bool) : Bool :=
  match x with
  | none => d
  | some b => b

/-- The option resolution of the part_002 (second JavaScript) constructor
(lines 297, 312, 319): caching defaults to true, and both fetchAll and
wal default to true via `=== undefined ? true : !!...`. -/
def resolveOptionsJS (o : CtorOptions) : ResolvedOptions :=
  ⟨undefDefault o.caching true, undefDefault o.fetchAll true, undefDefault o.wal true⟩

/-- The ConfigConflict guard of both constructors: the fetchAll branch
throws exactly when fetchAll resolved true while caching resolved
false. -/
def configConflict (r : ResolvedOptions) : Bool :=
  r.fetchAll && !r.caching

/-- The total serialization the statement builder applies to one non-null
bound value: structured containers become JSON text, other scalars pass
through. -/
def serializeBind : JValue → JValue
  | .obj fs => .str (stringify (.obj fs))
  | .arr xs => .str (stringify (.arr xs))
  | v => v

/-- No two adjacent cache entries both serialize to the probe (the
condition under which the forward splice scan of `delete` removes every
match). -/
def noAdjMatch (p : String) : List Row → Bool
  | a :: b :: rest =>
    (!((stringify (.obj a) == p) && (stringify (.obj b) == p))) && noAdjMatch p (b :: rest)
  | _ => true

/-- A backing engine whose statements all succeed, change one row and
leave the modelled store contents untouched. -/
def execOk : Exec := fun _ s => .ok (s, 1)

/-- A backing engine whose first statement throws an engine error. -/
def execFail : Exec := fun _ _ => .error "SQLITE_ERROR: syntax error"

/-- A DELETE collaborator reporting two affected rows. -/
def execDeleteTwo : ExecDelete := fun _ _ s => (s, 2)

/-- A cache state for the eviction counterexample: two entries matching
`a = 1` with one non-matching entry between them. -/
def stEvict : HandleState :=
  ⟨"t", true, [],
    [[("a", JValue.num 1), ("x", JValue.num 10)],
     [("b", JValue.num 7)],
     [("a", JValue.num 1), ("y", JValue.num 20)]]⟩

/-- The where-update row-intent probed against `stEvict`. -/
def inpEvict : JValue :=
  .obj [("where", .obj [("a", JValue.num 1)]), ("columns", .obj [("p", JValue.num 3)])]

/-- An empty-table handle with caching enabled. -/
def stEmpty : HandleState := ⟨"t", true, [], []⟩

/-- A handle whose cache holds two consecutive entries that both serialize
to the probe object of `delete("a", 1)`. -/
def stTwoDup : HandleState :=
  ⟨"t", true, [], [[("a", JValue.num 1)], [("a", JValue.num 1)]]⟩

/-- A handle with caching disabled. -/
def stNoCache : HandleState := ⟨"t", false, [], []⟩

/-- A backing engine whose UPDATE statements succeed but affect zero rows,
leaving the store unchanged. -/
def execZero : Exec := fun _ s => .ok (s, 0)

/-- A SELECT collaborator that finds nothing (an empty backing table). -/
def selNone : Select := fun _ _ _ => none

/-- The Query Descriptor `_createQuery` builds for the where-update
row-intent `where a = 1, columns p = 3`. -/
def qdEvict : QueryDescriptor :=
  ⟨"UPDATE t SET p = ? WHERE a = ?", [JValue.num 3], [JValue.num 1]⟩

/-- A handle whose cache holds one matching and one non-matching entry for
the `delete` witnesses. -/
def stDelete : HandleState :=
  ⟨"t", true, [], [[("a", JValue.num 1)], [("b", JValue.num 2)]]⟩

/-- A columns mapping with one value of every modelled scalar and
structured runtime type except null. -/
def cBind : Row :=
  [("s", JValue.str "x"), ("n", JValue.num 2), ("b", JValue.bool true),
   ("o", JValue.obj [("z", JValue.num 1)]), ("l", JValue.arr [JValue.num 1, JValue.num 2])]

/-- Writing a key that is not `k` never changes what reading `k` sees. -/
theorem getField_setField_ne (k k2 : String) (v : JValue) (h : k2 ≠ k) :
    ∀ r : Row, getField (setField r k2 v) k = getField r k := by
  intro r
  induction r with
  | nil => simp [setField, getField, h]
  | cons p rest ih =>
    obtain ⟨k3, v3⟩ := p
    by_cases h3 : k3 = k2
    · subst h3
      simp [setField, getField, h]
    · by_cases hk : k3 = k
      · subst hk
        simp [setField, getField, h3]
      · simp [setField, h3, getField, hk, ih]

/-- Merging a column set that does not mention `k` preserves the base
value of `k`. -/
theorem getField_foldl_setField (k : String) :
    ∀ (c : List (String × JValue)) (base : Row), (∀ p ∈ c, p.1 ≠ k) →
      getField (c.foldl (fun acc kv => setField acc kv.1 kv.2) base) k = getField base k := by
  intro c
  induction c with
  | nil => intro base _; rfl
  | cons p rest ih =>
    intro base h
    simp only [List.foldl_cons]
    rw [ih _ (fun q hq => h q (List.mem_cons_of_mem _ hq))]
    exact getField_setField_ne k p.1 p.2 (h p (List.mem_cons_self _ _)) base

/-- A cache scan over entries that all miss the probe finds the appended
row, at the position after them. -/
theorem cacheFindAux_append (k : String) (v : JValue) (m : Row)
    (hm : jsLooseEq (getField m k) v = true) :
    ∀ (l : List Row) (i : Nat), (∀ r ∈ l, jsLooseEq (getField r k) v = false) →
      cacheFindAux i (l ++ [m]) k v = some (i + l.length, m) := by
  intro l
  induction l with
  | nil => intro i _; simp [cacheFindAux, hm]
  | cons r rest ih =>
    intro i h
    have hr : jsLooseEq (getField r k) v = false := h r (List.mem_cons_self _ _)
    have hstep : cacheFindAux i ((r :: rest) ++ [m]) k v = cacheFindAux (i + 1) (rest ++ [m]) k v := by
      simp [cacheFindAux, hr]
    have harith : i + 1 + rest.length = i + (r :: rest).length := by
      simp only [List.length_cons]
      omega
    rw [hstep, ih (i + 1) (fun q hq => h q (List.mem_cons_of_mem _ hq)), harith]

/-- Overwriting the appended last element of a list. -/
theorem set_append_singleton {α : Type} (m d : α) :
    ∀ l : List α, (l ++ [m]).set l.length d = l ++ [d] := by
  intro l
  induction l with
  | nil => rfl
  | cons a rest ih => simp [List.set, ih]

/-- The forward splice scan of `delete` keeps every entry that does not
serialize to the probe. -/
theorem deleteScan_keeps_nonmatching (p : String) :
    ∀ l : List Row, ∀ v ∈ l, stringify (JValue.obj v) ≠ p → v ∈ deleteScan p l := by
  refine deleteScan.induct p
    (fun l => ∀ v ∈ l, stringify (JValue.obj v) ≠ p → v ∈ deleteScan p l) ?_ ?_ ?_ ?_
  · intro v hv _
    simp at hv
  · intro r1 h1 v hv hne
    simp only [List.mem_singleton] at hv
    subst hv
    exact absurd h1 hne
  · intro r1 h1 r2 rest2 ih v hv hne
    simp only [List.mem_cons] at hv
    have hd : deleteScan p (r1 :: r2 :: rest2) = r2 :: deleteScan p rest2 := by
      simp [deleteScan, h1]
    rw [hd]
    simp only [List.mem_cons]
    rcases hv with hv | hv | hv
    · subst hv
      exact absurd h1 hne
    · exact Or.inl hv
    · exact Or.inr (ih v hv hne)
  · intro r1 rest2 h1 ih v hv hne
    simp only [List.mem_cons] at hv
    have hd : deleteScan p (r1 :: rest2) = r1 :: deleteScan p rest2 := by
      cases rest2 <;> simp [deleteScan, h1]
    rw [hd]
    simp only [List.mem_cons]
    rcases hv with hv | hv
    · exact Or.inl hv
    · exact Or.inr (ih v hv hne)

/-- Predicate `noAdjMatch` is preserved by dropping the head. -/
theorem noAdjMatch_tail (p : String) (a : Row) :
    ∀ l : List Row, noAdjMatch p (a :: l) = true → noAdjMatch p l = true := by
  intro l h
  match l with
  | [] => rfl
  | b :: rest =>
    simp only [noAdjMatch, Bool.and_eq_true] at h
    exact h.2

/-- When no two adjacent entries both match the probe, the forward splice
scan of `delete` removes exactly the matching entries. -/
theorem deleteScan_eq_filter (p : String) :
    ∀ l : List Row, noAdjMatch p l = true →
      deleteScan p l = l.filter (fun r => !(stringify (JValue.obj r) == p)) := by
  refine deleteScan.induct p
    (fun l => noAdjMatch p l = true →
      deleteScan p l = l.filter (fun r => !(stringify (JValue.obj r) == p))) ?_ ?_ ?_ ?_
  · intro _
    rfl
  · intro r1 h1 _
    simp [deleteScan, h1, List.filter]
  · intro r1 h1 r2 rest2 ih hadj
    have h2 : ¬ stringify (JValue.obj r2) = p := by
      simp only [noAdjMatch, Bool.and_eq_true, Bool.not_eq_true',
        Bool.and_eq_false_iff, beq_eq_false_iff_ne, ne_eq] at hadj
      rcases hadj.1 with h | h
      · exact absurd h1 h
      · exact h
    have hrest : noAdjMatch p rest2 = true :=
      noAdjMatch_tail p r2 rest2 (noAdjMatch_tail p r1 (r2 :: rest2) hadj)
    have hd : deleteScan p (r1 :: r2 :: rest2) = r2 :: deleteScan p rest2 := by
      simp [deleteScan, h1]
    rw [hd, ih hrest]
    simp [List.filter_cons, h1, h2]
  · intro r1 rest2 h1 ih hadj
    have hd : deleteScan p (r1 :: rest2) = r1 :: deleteScan p rest2 := by
      cases rest2 <;> simp [deleteScan, h1]
    rw [hd, ih (noAdjMatch_tail p r1 rest2 hadj)]
    simp [List.filter_cons, h1]

/-- The eviction scan of `set` keeps every entry that matches no
where-key. -/
theorem evictScan_keeps_nonmatching (w : JValue) :
    ∀ l : List Row, ∀ v ∈ l, rowMatchesWhere v w = false → v ∈ (evictScan w l).1 := by
  refine evictScan.induct w
    (fun l => ∀ v ∈ l, rowMatchesWhere v w = false → v ∈ (evictScan w l).1) ?_ ?_ ?_ ?_
  · intro v hv _
    simp at hv
  · intro r1 h1 v hv hne
    simp only [List.mem_singleton] at hv
    subst hv
    rw [h1] at hne
    simp at hne
  · intro r1 h1 r2 rest2 ih v hv hne
    simp only [List.mem_cons] at hv
    have hd : (evictScan w (r1 :: r2 :: rest2)).1 = r2 :: (evictScan w rest2).1 := by
      simp [evictScan, h1]
    rw [hd]
    simp only [List.mem_cons]
    rcases hv with hv | hv | hv
    · subst hv
      rw [h1] at hne
      simp at hne
    · exact Or.inl hv
    · exact Or.inr (ih v hv hne)
  · intro r1 rest2 h1 ih v hv hne
    simp only [List.mem_cons] at hv
    have hd : (evictScan w (r1 :: rest2)).1 = r1 :: (evictScan w rest2).1 := by
      cases rest2 <;> simp [evictScan, h1]
    rw [hd]
    simp only [List.mem_cons]
    rcases hv with hv | hv
    · exact Or.inl hv
    · exact Or.inr (ih v hv hne)

/-- A non-null value is encoded by the statement builder exactly as
`serializeBind` describes. -/
theorem bindEncode_eq_serializeBind (v : JValue) (h : v ≠ JValue.null) :
    bindEncode v = .ok (serializeBind v) := by
  cases v with
  | null => exact absurd rfl h
  | bool b => rfl
  | num n => rfl
  | str s => rfl
  | arr xs => rfl
  | obj fs => rfl

/-- When no looked-up column value is null, the values-push loop succeeds
and binds exactly the serialized values, in key order. -/
theorem bindValues_eq_map (columns : JValue) :
    ∀ keys : List String,
      (∀ cn ∈ keys, (getProp columns cn).getD JValue.null ≠ JValue.null) →
      bindValues columns keys =
        .ok (keys.map (fun cn => serializeBind ((getProp columns cn).getD JValue.null))) := by
  intro keys
  induction keys with
  | nil => intro _; rfl
  | cons cn rest ih =>
    intro h
    have h1 := bindEncode_eq_serializeBind _ (h cn (List.mem_cons_self _ _))
    simp only [bindValues, h1, ih (fun q hq => h q (List.mem_cons_of_mem _ hq)), List.map]

/-- A key listed in a row maps to the value of its first occurrence, which
is one of the fields of the row. -/
theorem getField_of_mem_keys :
    ∀ (c : Row) (cn : String), cn ∈ c.map Prod.fst →
      ∃ v, getField c cn = some v ∧ (cn, v) ∈ c := by
  intro c
  induction c with
  | nil =>
    intro cn h
    simp at h
  | cons p rest ih =>
    intro cn h
    obtain ⟨k, v⟩ := p
    by_cases hk : k = cn
    · subst hk
      exact ⟨v, by simp [getField], by simp⟩
    · simp only [List.map_cons, List.mem_cons] at h
      rcases h with h | h
      · exact absurd h.symm hk
      · obtain ⟨v2, hg, hm⟩ := ih cn h
        exact ⟨v2, by simp [getField, hk, hg], List.mem_cons_of_mem _ hm⟩

/-- The single where-update path of `set`, evaluated symbolically: with a
successfully built query and a committed transaction, the final cache is
the evicted cache with the merged row appended, and the merged row (also
the returned value) is `columns` merged onto the entry the eviction scan
ended up holding in `oldCacheValue`. -/
theorem jsSet_where_update (exec : Exec) (st : HandleState) (w c : Row)
    (qd : QueryDescriptor) (store2 : Store) (infos : List Nat)
    (hq : createQuery st.name [("where", JValue.obj w), ("columns", JValue.obj c)] = .ok qd)
    (ht : runTransaction exec st.store [qd] = .ok (store2, infos))
    (hc : st.caching = true) :
    jsSet exec st (.obj [("where", JValue.obj w), ("columns", JValue.obj c)]) =
      (⟨st.name, true, store2,
        (evictScan (JValue.obj w) st.cache).1 ++
          [c.foldl (fun acc kv => setField acc kv.1 kv.2)
            ((evictScan (JValue.obj w) st.cache).2.getD [])]⟩,
       .ok (.obj (c.foldl (fun acc kv => setField acc kv.1 kv.2)
            ((evictScan (JValue.obj w) st.cache).2.getD [])))) := by
  have hnorm : normalizeRow (JValue.obj [("where", JValue.obj w), ("columns", JValue.obj c)]) =
      [("where", JValue.obj w), ("columns", JValue.obj c)] := rfl
  have hml : ∀ cache : List Row,
      mergeLoop true [JValue.obj [("where", JValue.obj w), ("columns", JValue.obj c)]] cache [] =
      ((evictScan (JValue.obj w) cache).1 ++
        [c.foldl (fun acc kv => setField acc kv.1 kv.2) ((evictScan (JValue.obj w) cache).2.getD [])],
       [c.foldl (fun acc kv => setField acc kv.1 kv.2) ((evictScan (JValue.obj w) cache).2.getD [])],
       none) := fun cache => rfl
  simp only [jsSet, setInputRows, buildQueries, hnorm, hq, ht, hc, hml, setReturn]

/-- Claim C1: whenever a `set` call fails while validating its argument,
while building the statements of the batch, or while executing any statement
of the batch inside the single transaction, `set` raises that error and
the handle state — backing store and cache — is exactly as before the
call.  (Statements run inside `runTransaction`, the model of the
`db.transaction` wrapper, whose failure rolls the store back; the cache
loop runs only after the transaction returns.) -/
theorem set_failure_leaves_state_unchanged (exec : Exec) (st : HandleState)
    (input : JValue) (e : String) :
    (setInputRows input = .error e → jsSet exec st input = (st, .error e)) ∧
    (∀ elems, setInputRows input = .ok elems →
      ((buildQueries st.name elems = .error e → jsSet exec st input = (st, .error e)) ∧
       (∀ qs, buildQueries st.name elems = .ok qs →
         runTransaction exec st.store qs = .error e →
         jsSet exec st input = (st, .error e)))) := by
  refine ⟨?_, ?_⟩
  · intro h
    simp [jsSet, h]
  · intro elems hok
    refine ⟨?_, ?_⟩
    · intro h
      simp [jsSet, hok, h]
    · intro qs hqs ht
      simp [jsSet, hok, hqs, ht]

/-- Witness for C1: a transaction whose statement throws leaves the
concrete handle exactly as it was, and `set` surfaces the engine
error. -/
theorem set_failure_leaves_state_unchanged_witness :
    jsSet execFail stEvict inpEvict = (stEvict, .error "SQLITE_ERROR: syntax error") :=
  ((set_failure_leaves_state_unchanged execFail stEvict inpEvict
      "SQLITE_ERROR: syntax error").2 [inpEvict] rfl).2 [qdEvict] rfl rfl

/-- Counterexample to claim C2 as stated: with cache
`[{a:1,x:10}, {b:7}, {a:1,y:20}]` and `set({where:{a:1}, columns:{p:3}})`,
the claim predicts that only the first matching entry `{a:1,x:10}` is
removed and used as the merge base (result `{a:1,x:10,p:3}`, with
`{a:1,y:20}` still cached).  The code also removes the second matching
entry `{a:1,y:20}` and merges onto it: the final cache is
`[{b:7}, {a:1,y:20,p:3}]`, the removed `{a:1,y:20}` is gone, and the
returned row carries `y:20`, not `x:10`. -/
theorem set_where_eviction_counterexample :
    (jsSet execOk stEvict inpEvict).1.cache =
      [[("b", JValue.num 7)], [("a", JValue.num 1), ("y", JValue.num 20), ("p", JValue.num 3)]]
    ∧ [("a", JValue.num 1), ("y", JValue.num 20)] ∉ (jsSet execOk stEvict inpEvict).1.cache
    ∧ (jsSet execOk stEvict inpEvict).2 =
      .ok (.obj [("a", JValue.num 1), ("y", JValue.num 20), ("p", JValue.num 3)]) := by
  refine ⟨rfl, ?_, rfl⟩
  show [("a", JValue.num 1), ("y", JValue.num 20)] ∉
    [[("b", JValue.num 7)], [("a", JValue.num 1), ("y", JValue.num 20), ("p", JValue.num 3)]]
  simp

/-- Claim C2 (amended): after the transaction commits, the cache scan of a
where-update removes every entry matching any where-key/value pair —
except that the entry immediately following a removed one is skipped —
and the LAST removed entry (not the first) is the base onto which
`columns` is merged, so fields of that base not named in `columns` appear
unchanged in the returned merged row; entries matching no where-key all
survive; the merged row is appended to the evicted cache. -/
theorem set_where_eviction_amended (exec : Exec) (st : HandleState) (w c : Row)
    (qd : QueryDescriptor) (store2 : Store) (infos : List Nat)
    (hq : createQuery st.name [("where", JValue.obj w), ("columns", JValue.obj c)] = .ok qd)
    (ht : runTransaction exec st.store [qd] = .ok (store2, infos))
    (hc : st.caching = true) :
    let merged := c.foldl (fun acc kv => setField acc kv.1 kv.2)
        ((evictScan (JValue.obj w) st.cache).2.getD [])
    jsSet exec st (.obj [("where", JValue.obj w), ("columns", JValue.obj c)]) =
      (⟨st.name, true, store2, (evictScan (JValue.obj w) st.cache).1 ++ [merged]⟩,
       .ok (.obj merged))
    ∧ (∀ k, (∀ p ∈ c, p.1 ≠ k) →
        getField merged k = getField ((evictScan (JValue.obj w) st.cache).2.getD []) k)
    ∧ (∀ v ∈ st.cache, rowMatchesWhere v (JValue.obj w) = false →
        v ∈ (evictScan (JValue.obj w) st.cache).1) := by
  intro merged
  refine ⟨jsSet_where_update exec st w c qd store2 infos hq ht hc, ?_, ?_⟩
  · intro k hk
    exact getField_foldl_setField k c _ hk
  · intro v hv hne
    exact evictScan_keeps_nonmatching (JValue.obj w) st.cache v hv hne

/-- Witness for the amended C2: the concrete where-update on `stEvict`
evaluates to the state and return value the theorem describes. -/
theorem set_where_eviction_amended_witness :
    jsSet execOk stEvict inpEvict =
      (⟨"t", true, [],
        [[("b", JValue.num 7)], [("a", JValue.num 1), ("y", JValue.num 20), ("p", JValue.num 3)]]⟩,
       .ok (.obj [("a", JValue.num 1), ("y", JValue.num 20), ("p", JValue.num 3)])) :=
  (set_where_eviction_amended execOk stEvict [("a", JValue.num 1)] [("p", JValue.num 3)]
    qdEvict [] [1] rfl rfl rfl).1

/-- Claim C3 (code bug): for a two-key `where`, the builder joins the
WHERE conjuncts with " AND" — no trailing space (the join separator in the
source) — producing `WHERE a = ? ANDb = ?` instead of the documented
`WHERE a = ? AND b = ?`; the statement text the claim requires is not the
one produced. -/
theorem update_where_join_bug :
    createQuery "t" [("columns", JValue.obj [("c", JValue.num 5)]),
                     ("where", JValue.obj [("a", JValue.num 1), ("b", JValue.num 2)])] =
      .ok ⟨"UPDATE t SET c = ? WHERE a = ? ANDb = ?", [JValue.num 5], [JValue.num 1, JValue.num 2]⟩
    ∧ "UPDATE t SET c = ? WHERE a = ? ANDb = ?" ≠ "UPDATE t SET c = ? WHERE a = ? AND b = ?" :=
  ⟨rfl, by decide⟩

/-- Counterexample to the idempotence half of claim C4: a stored value
`"\"1\""` decodes to the string `"1"`, and decoding again parses that to
the number 1, so decode ∘ decode differs from decode. -/
theorem parseKeys_idempotence_counterexample :
    parseKeys [("k", JValue.str "\"1\"")] = [("k", JValue.str "1")]
    ∧ parseKeys (parseKeys [("k", JValue.str "\"1\"")]) = [("k", JValue.num 1)]
    ∧ parseKeys (parseKeys [("k", JValue.str "\"1\"")]) ≠ parseKeys [("k", JValue.str "\"1\"")] := by
  refine ⟨rfl, rfl, ?_⟩
  show ([("k", JValue.num 1)] : Row) ≠ [("k", JValue.str "1")]
  simp

/-- Claim C4 (amended): the decode step is total — it raises for no input
row, keeps every key, and keeps any value whose parse fails unchanged —
but it is not idempotent: a decoded value can itself parse as JSON on a
second pass. -/
theorem parseKeys_total_but_not_idempotent :
    (∀ r : Row, (parseKeys r).length = r.length ∧
      ∀ k v, (k, v) ∈ r →
        ((k, parseField v) ∈ parseKeys r ∧ (jsonParseJS v = none → parseField v = v)))
    ∧ ¬ (∀ r : Row, parseKeys (parseKeys r) = parseKeys r) := by
  constructor
  · intro r
    constructor
    · simp [parseKeys]
    · intro k v hkv
      constructor
      · exact List.mem_map.mpr ⟨(k, v), hkv, rfl⟩
      · intro h
        simp [parseField, h]
  · intro hall
    have h := hall [("k", JValue.str "\"1\"")]
    rw [show parseKeys [("k", JValue.str "\"1\"")] = [("k", JValue.str "1")] from rfl,
        show parseKeys [("k", JValue.str "1")] = [("k", JValue.num 1)] from rfl] at h
    simp at h

/-- Witness for the amended C4: the totality clauses applied to a concrete
one-field row whose value fails to parse. -/
theorem parseKeys_total_but_not_idempotent_witness :
    ("k", parseField (JValue.str "abc")) ∈ parseKeys [("k", JValue.str "abc")]
    ∧ (jsonParseJS (JValue.str "abc") = none → parseField (JValue.str "abc") = JValue.str "abc") :=
  (parseKeys_total_but_not_idempotent.1 [("k", JValue.str "abc")]).2 "k" (JValue.str "abc")
    (List.mem_singleton.mpr rfl)

/-- Counterexample to claim C5 as stated: a row-intent with an empty
`columns` mapping is not rejected with InvalidInput — the builder
produces `INSERT INTO t () VALUES ()` and the whole `set` call succeeds,
pushing an empty row into the cache. -/
theorem set_empty_columns_counterexample :
    jsSet execOk stEmpty (JValue.obj [("columns", JValue.obj [])]) =
      (⟨"t", true, [], [[]]⟩, .ok (JValue.obj []))
    ∧ createQuery "t" [("columns", JValue.obj [])] =
      .ok ⟨"INSERT INTO t () VALUES ()", [], []⟩ :=
  ⟨rfl, rfl⟩

/-- Claim C5 (amended): `set` raises its InvalidInput error synchronously
when the rowOrRows argument itself is not a plain object or an array; a
row-intent whose `columns` is an empty mapping is not rejected — the
builder turns it into an INSERT statement with an empty column list
(which is left to fail, if at all, inside the SQL engine). -/
theorem set_invalid_input_amended (exec : Exec) (st : HandleState) :
    (∀ v : JValue, (∀ fs, v ≠ JValue.obj fs) → (∀ xs, v ≠ JValue.arr xs) →
      jsSet exec st v = (st, .error invalidRowsMessage))
    ∧ createQuery "t" [("columns", JValue.obj [])] =
      .ok ⟨"INSERT INTO t () VALUES ()", [], []⟩ := by
  constructor
  · intro v hobj harr
    cases v with
    | null => rfl
    | bool b => rfl
    | num n => rfl
    | str s => rfl
    | arr xs => exact absurd rfl (harr xs)
    | obj fs => exact absurd rfl (hobj fs)
  · rfl

/-- Witness for the amended C5: a numeric argument to `set` raises the
InvalidInput error and leaves the handle untouched. -/
theorem set_invalid_input_amended_witness :
    jsSet execOk stEmpty (JValue.num 5) = (stEmpty, .error invalidRowsMessage) :=
  (set_invalid_input_amended execOk stEmpty).1 (JValue.num 5)
    (fun _ h => JValue.noConfusion h) (fun _ h => JValue.noConfusion h)

/-- Counterexample to claim C6 as stated: with two consecutive cache
entries both serializing identically to the probe `{a:1}`, `delete`
removes only the first — the index increment of the forward loop after the
splice skips the entry that slid into the removed slot — leaving one
matching entry behind where the claim requires all of them removed. -/
theorem delete_consecutive_counterexample :
    (jsDelete execDeleteTwo stTwoDup "a" (JValue.num 1)).1.cache = [[("a", JValue.num 1)]]
    ∧ (jsDelete execDeleteTwo stTwoDup "a" (JValue.num 1)).1.cache ≠ []
    ∧ (jsDelete execDeleteTwo stTwoDup "a" (JValue.num 1)).2 = 2 := by
  refine ⟨rfl, ?_, rfl⟩
  show ([[("a", JValue.num 1)]] : List Row) ≠ []
  simp

/-- Claim C6 (amended): `delete` returns the affected-row count of the
backing DELETE, its cache pass keeps every entry whose full serialization
differs from the one-field probe, and it removes every serialization
match only as long as no two matching entries are adjacent (the forward
splice scan skips the entry immediately after each removal). -/
theorem delete_cache_eviction_amended (execDelete : ExecDelete) (st : HandleState)
    (cn : String) (cv : JValue) (hc : st.caching = true) :
    (jsDelete execDelete st cn cv).2 = (execDelete cn cv st.store).2
    ∧ (jsDelete execDelete st cn cv).1.cache =
        deleteScan (stringify (JValue.obj [(cn, cv)])) st.cache
    ∧ (∀ v ∈ st.cache, stringify (JValue.obj v) ≠ stringify (JValue.obj [(cn, cv)]) →
        v ∈ (jsDelete execDelete st cn cv).1.cache)
    ∧ (noAdjMatch (stringify (JValue.obj [(cn, cv)])) st.cache = true →
        (jsDelete execDelete st cn cv).1.cache =
          st.cache.filter
            (fun r => !(stringify (JValue.obj r) == stringify (JValue.obj [(cn, cv)])))) := by
  have hcache : (jsDelete execDelete st cn cv).1.cache =
      deleteScan (stringify (JValue.obj [(cn, cv)])) st.cache := by
    simp [jsDelete, hc]
  refine ⟨rfl, hcache, ?_, ?_⟩
  · intro v hv hne
    rw [hcache]
    exact deleteScan_keeps_nonmatching _ st.cache v hv hne
  · intro hadj
    rw [hcache]
    exact deleteScan_eq_filter _ st.cache hadj

/-- Witness for the amended C6: deleting `a = 1` against a cache with one
matching and one non-matching entry returns the count the engine reports and evicts
exactly the matching entry. -/
theorem delete_cache_eviction_amended_witness :
    (jsDelete execDeleteTwo stDelete "a" (JValue.num 1)).2 = 2
    ∧ (jsDelete execDeleteTwo stDelete "a" (JValue.num 1)).1.cache = [[("b", JValue.num 2)]] := by
  have h := delete_cache_eviction_amended execDeleteTwo stDelete "a" (JValue.num 1) rfl
  exact ⟨by rw [h.1]; rfl, by rw [h.2.1]; rfl⟩

/-- Claim C7: with caching enabled, `uncache()` with no arguments empties
the cache and returns true, and a second call is a no-op that also
returns true; with caching disabled, `uncache` returns false immediately
whatever its arguments, touching nothing. -/
theorem uncache_contract (st : HandleState) :
    (st.caching = true →
      jsUncache st none = (⟨st.name, st.caching, st.store, []⟩, true)
      ∧ jsUncache (jsUncache st none).1 none = ((jsUncache st none).1, true))
    ∧ (st.caching = false → ∀ args, jsUncache st args = (st, false)) := by
  constructor
  · intro h
    constructor
    · simp [jsUncache, h, List.isEmpty]
    · simp [jsUncache, h, List.isEmpty]
  · intro h args
    simp [jsUncache, h]

/-- Witness for C7: the concrete caching-enabled handle is cleared with
both calls returning true, and the caching-disabled handle returns false
with arguments supplied. -/
theorem uncache_contract_witness :
    (jsUncache stTwoDup none = (⟨"t", true, [], []⟩, true)
      ∧ jsUncache (jsUncache stTwoDup none).1 none = ((jsUncache stTwoDup none).1, true))
    ∧ jsUncache stNoCache (some ("a", JValue.num 1)) = (stNoCache, false) :=
  ⟨(uncache_contract stTwoDup).1 rfl, (uncache_contract stNoCache).2 rfl (some ("a", JValue.num 1))⟩

/-- Claim C8 (code bug): the part_003 constructor resolves
`caching = options.caching || true`, so an explicit `caching: false` still
yields caching = true — caching can never be disabled and the
ConfigConflict guard can never fire, even for
`{caching: false, fetchAll: true}`; and the part_002 revision defaults
`fetchAll` and `wal` to true (`=== undefined ? true : ...`) against its
own documented defaults of false. -/
theorem constructor_options_bug :
    (resolveOptionsTS ⟨some false, some true, none⟩).caching = true
    ∧ configConflict (resolveOptionsTS ⟨some false, some true, none⟩) = false
    ∧ (∀ o : CtorOptions, (resolveOptionsTS o).caching = true)
    ∧ resolveOptionsJS ⟨none, none, none⟩ = ⟨true, true, true⟩ := by
  refine ⟨rfl, rfl, ?_, rfl⟩
  intro o
  rcases o with ⟨c, f, w⟩
  cases c with
  | none => rfl
  | some b => cases b <;> rfl

/-- Counterexample to claim C9 as stated: a `set` whose columns contain a
null value does not bind null — reading `.constructor` of null inside the
builder throws a TypeError, so the call raises before any statement is
built. -/
theorem set_null_value_counterexample :
    jsSet execOk stEmpty (JValue.obj [("columns", JValue.obj [("a", JValue.null)])]) =
      (stEmpty, .error "TypeError: Cannot read properties of null")
    ∧ createQuery "t" [("columns", JValue.obj [("a", JValue.null)])] =
      .error "TypeError: Cannot read properties of null" :=
  ⟨rfl, rfl⟩

/-- Claim C9 (amended): for every row-intent whose column values are not
null, the builder serializes exactly the object- and array-valued columns
to JSON text and binds strings, numbers and booleans as-is, in key order,
in both the INSERT and the UPDATE branch (where the WHERE values are
bound raw); a null column value instead raises a TypeError. -/
theorem createQuery_binding_amended (name : String) (c : Row)
    (hnn : ∀ p ∈ c, p.2 ≠ JValue.null) :
    (createQuery name [("columns", JValue.obj c)]).map QueryDescriptor.values =
      .ok ((c.map Prod.fst).map
        (fun cn => serializeBind ((getProp (JValue.obj c) cn).getD JValue.null)))
    ∧ (∀ w : Row,
        (createQuery name [("columns", JValue.obj c), ("where", JValue.obj w)]).map
            QueryDescriptor.values =
          .ok ((c.map Prod.fst).map
            (fun cn => serializeBind ((getProp (JValue.obj c) cn).getD JValue.null)))
        ∧ (createQuery name [("columns", JValue.obj c), ("where", JValue.obj w)]).map
            QueryDescriptor.whereValues =
          .ok (w.map Prod.snd)) := by
  have hlook : ∀ cn ∈ c.map Prod.fst,
      (getProp (JValue.obj c) cn).getD JValue.null ≠ JValue.null := by
    intro cn hcn
    obtain ⟨v, hg, hm⟩ := getField_of_mem_keys c cn hcn
    have hgp : getProp (JValue.obj c) cn = some v := by
      simpa [getProp] using hg
    rw [hgp]
    exact hnn _ hm
  have hb := bindValues_eq_map (JValue.obj c) (c.map Prod.fst) hlook
  have hins : createQuery name [("columns", JValue.obj c)] =
      insertQuery name (JValue.obj c) (c.map Prod.fst) := rfl
  constructor
  · rw [hins]
    simp only [insertQuery, hb, Except.map]
  · intro w
    have hw : getField [("columns", JValue.obj c), ("where", JValue.obj w)] "where" =
        some (JValue.obj w) := rfl
    have hcols : getField [("columns", JValue.obj c), ("where", JValue.obj w)] "columns" =
        some (JValue.obj c) := rfl
    have hok : objectKeys (JValue.obj c) = c.map Prod.fst := rfl
    have hfp : forInPairs (JValue.obj w) = w := rfl
    constructor
    · simp only [createQuery, hw, hcols, Option.getD_some, truthy, if_true, hok, hb, hfp,
        Except.map]
    · simp only [createQuery, hw, hcols, Option.getD_some, truthy, if_true, hok, hb, hfp,
        Except.map]

/-- Witness for the amended C9: one column of every modelled non-null
runtime type, bound through both branches of the builder. -/
theorem createQuery_binding_amended_witness :
    (createQuery "t" [("columns", JValue.obj cBind)]).map QueryDescriptor.values =
      .ok ((cBind.map Prod.fst).map
        (fun cn => serializeBind ((getProp (JValue.obj cBind) cn).getD JValue.null)))
    ∧ ((createQuery "t" [("columns", JValue.obj cBind),
          ("where", JValue.obj [("k", JValue.num 9)])]).map QueryDescriptor.values =
        .ok ((cBind.map Prod.fst).map
          (fun cn => serializeBind ((getProp (JValue.obj cBind) cn).getD JValue.null)))
      ∧ (createQuery "t" [("columns", JValue.obj cBind),
          ("where", JValue.obj [("k", JValue.num 9)])]).map QueryDescriptor.whereValues =
        .ok ([("k", JValue.num 9)].map Prod.snd)) :=
  ⟨(createQuery_binding_amended "t" cBind (by simp [cBind])).1,
   (createQuery_binding_amended "t" cBind (by simp [cBind])).2 [("k", JValue.num 9)]⟩

/-- Claim C10: a where-update whose UPDATE affects zero backing rows (the
engine reports 0 changes and the store is untouched) still appends the
merged row to the cache, and a subsequent `get` probing any field of that
merged row — when no earlier surviving cache entry matches the probe —
returns the merged row from the cache for every possible backing-store
SELECT collaborator, i.e. without consulting the store, even though no
such row exists there. -/
theorem set_zero_row_update_pollutes_cache (exec : Exec) (select : Select)
    (st : HandleState) (w c : Row) (qd : QueryDescriptor) (k : String) (v : JValue)
    (hc : st.caching = true)
    (hq : createQuery st.name [("where", JValue.obj w), ("columns", JValue.obj c)] = .ok qd)
    (hexec : exec qd st.store = .ok (st.store, 0)) :
    let merged := c.foldl (fun acc kv => setField acc kv.1 kv.2)
        ((evictScan (JValue.obj w) st.cache).2.getD [])
    let st2 : HandleState :=
      ⟨st.name, true, st.store, (evictScan (JValue.obj w) st.cache).1 ++ [merged]⟩
    jsSet exec st (.obj [("where", JValue.obj w), ("columns", JValue.obj c)]) =
      (st2, .ok (.obj merged))
    ∧ (jsLooseEq (getField merged k) v = true →
       (∀ r ∈ (evictScan (JValue.obj w) st.cache).1, jsLooseEq (getField r k) v = false) →
       parseKeys merged = merged →
       jsGet select st2 k v = (st2, some merged)) := by
  intro merged st2
  have ht : runTransaction exec st.store [qd] = .ok (st.store, [0]) := by
    simp [runTransaction, hexec]
  constructor
  · exact jsSet_where_update exec st w c qd st.store [0] hq ht hc
  · intro hm hnone hstable
    have hcf : cacheFind ((evictScan (JValue.obj w) st.cache).1 ++ [merged]) k v =
        some ((evictScan (JValue.obj w) st.cache).1.length, merged) := by
      simpa [cacheFind] using
        cacheFindAux_append k v merged hm (evictScan (JValue.obj w) st.cache).1 0 hnone
    have hca : st2.caching = true := rfl
    have hsc : st2.cache = (evictScan (JValue.obj w) st.cache).1 ++ [merged] := rfl
    simp only [jsGet, hca, if_true, hsc, hcf, hstable]
    rw [set_append_singleton]

/-- Witness for C10: an update of `p` to 3 where `a = 1`, against an empty
table whose engine reports zero changes, still caches `p:3`, and the
subsequent `get("p", 3)` answers it from the cache against a SELECT
collaborator that finds nothing. -/
theorem set_zero_row_update_pollutes_cache_witness :
    jsSet execZero stEmpty
        (.obj [("where", JValue.obj [("a", JValue.num 1)]),
               ("columns", JValue.obj [("p", JValue.num 3)])]) =
      (⟨"t", true, [], [[("p", JValue.num 3)]]⟩, .ok (.obj [("p", JValue.num 3)]))
    ∧ jsGet selNone ⟨"t", true, [], [[("p", JValue.num 3)]]⟩ "p" (JValue.num 3) =
      (⟨"t", true, [], [[("p", JValue.num 3)]]⟩, some [("p", JValue.num 3)]) := by
  have h := set_zero_row_update_pollutes_cache execZero selNone stEmpty
    [("a", JValue.num 1)] [("p", JValue.num 3)] qdEvict "p" (JValue.num 3) rfl rfl rfl
  exact ⟨h.1, h.2 rfl (fun r hr => absurd hr (List.not_mem_nil r)) rfl⟩

end SqliteHelper
